import Mathlib

/-!
# doc-template-kit — verification of the expression-evaluator core

Shallow embedding of `src/core/expr.ts` (expression evaluator, function
catalog, variable dependency resolver), `src/core/evaluate.ts`
(`evalBoolean`) and `renderTemplateString` against the natural-language
specification.

Modelling conventions:
* JavaScript dynamic values are a closed inductive `Value`
  (undefined / null / boolean / number / string / array / plain object /
  catalog function).  Host-object prototype chains, reference identity of
  objects and `Date` objects are outside the embedding; every place that
  touches one of those is marked with a comment.
* JavaScript numbers are modelled as exact rationals extended with
  `NaN` / `+Infinity` / `-Infinity` (`JNum`).  IEEE-754 rounding and the
  shortest-round-trip printing of non-integral doubles are not modelled;
  all claims under verification only involve integral values, where the
  model and the IEEE semantics agree.
* The syntactic parser (`jsep`) is an external collaborator of this
  repository; functions of the source that parse (`evalExpression`,
  `collectVarDeps`, `evaluateVariables`, `renderTemplateString`,
  `evalBoolean`) take the parser as an explicit argument
  `parse : String → Except String Expr`.
* Lists inside `Value` and `Expr` are mutual inductives (`ValueList`,
  `ValueFields`, `ExprList`, `PropList`) so that the evaluator is
  structurally recursive and computable inside the kernel.
-/

set_option maxRecDepth 8000

attribute [local semireducible] Rat.add Rat.sub Rat.mul Rat.inv

namespace DocTemplateKit

/-- JavaScript numbers: exact rationals extended with `NaN` and the two
infinities.  (IEEE-754 rounding is not modelled; see the file header.) -/
inductive JNum where
  | nan : JNum
  | inf : JNum
  | ninf : JNum
  | q : ℚ → JNum
deriving DecidableEq, Repr

namespace JNum

/-- JS unary negation on numbers (`-x`). -/
def neg : JNum → JNum
  | nan => nan
  | inf => ninf
  | ninf => inf
  | q x => q (-x)

/-- JS `+` on two numbers. -/
def add : JNum → JNum → JNum
  | nan, _ => nan
  | _, nan => nan
  | inf, ninf => nan
  | ninf, inf => nan
  | inf, _ => inf
  | _, inf => inf
  | ninf, _ => ninf
  | _, ninf => ninf
  | q a, q b => q (a + b)

/-- JS `-` on two numbers. -/
def sub (a b : JNum) : JNum := add a (neg b)

/-- JS `*` on two numbers. -/
def mul : JNum → JNum → JNum
  | nan, _ => nan
  | _, nan => nan
  | inf, inf => inf
  | inf, ninf => ninf
  | ninf, inf => ninf
  | ninf, ninf => inf
  | inf, q b => if b = 0 then nan else if 0 < b then inf else ninf
  | q a, inf => if a = 0 then nan else if 0 < a then inf else ninf
  | ninf, q b => if b = 0 then nan else if 0 < b then ninf else inf
  | q a, ninf => if a = 0 then nan else if 0 < a then ninf else inf
  | q a, q b => q (a * b)

/-- JS `/` on two numbers.  (`-0` is not modelled, so division by zero
yields the `+0` behaviour: sign of the dividend.) -/
def div : JNum → JNum → JNum
  | nan, _ => nan
  | _, nan => nan
  | inf, inf => nan
  | inf, ninf => nan
  | ninf, inf => nan
  | ninf, ninf => nan
  | inf, q b => if 0 ≤ b then inf else ninf
  | ninf, q b => if 0 ≤ b then ninf else inf
  | q _, inf => q 0
  | q _, ninf => q 0
  | q a, q b =>
    if b = 0 then (if a = 0 then nan else if 0 < a then inf else ninf)
    else q (a / b)

/-- Truncation of a rational toward zero. -/
def truncQ (x : ℚ) : ℤ := if 0 ≤ x then ⌊x⌋ else ⌈x⌉

/-- JS `%` (remainder; sign follows the dividend). -/
def mod : JNum → JNum → JNum
  | nan, _ => nan
  | _, nan => nan
  | inf, _ => nan
  | ninf, _ => nan
  | q a, inf => q a
  | q a, ninf => q a
  | q a, q b =>
    if b = 0 then nan else q (a - b * (truncQ (a / b) : ℚ))

/-- Equality of JS numbers (`NaN` is not equal to anything, including
itself). -/
def numEq : JNum → JNum → Bool
  | nan, _ => false
  | _, nan => false
  | inf, inf => true
  | ninf, ninf => true
  | q a, q b => a = b
  | _, _ => false

end JNum

/-- Tags for the functions of the default catalog (`defaultFunctions` in
`src/core/expr.ts`).  Their semantics live in `applyFn` below. -/
inductive Fn where
  | concat | upper | lower | trim | padStart | padEnd | replace | substr
  | abs | round | floor | ceil | min | max | coalesce | json
  | now | addDays | addMonths | addYears | formatDate
deriving DecidableEq, Repr

mutual

/-- The closed domain of JavaScript values the evaluator manipulates.
`vundef` is JS `undefined` (the spec's "absent" sentinel); `vobj` is a
plain object as an insertion-ordered field list; `vfn` is a catalog
function value (the source stores the host closure itself — only catalog
functions can ever become values, so the tag suffices). -/
inductive Value where
  | vundef : Value
  | vnull : Value
  | vbool : Bool → Value
  | vnum : JNum → Value
  | vstr : String → Value
  | vlist : ValueList → Value
  | vobj : ValueFields → Value
  | vfn : Fn → Value

/-- A JS array's elements. -/
inductive ValueList where
  | nil : ValueList
  | cons : Value → ValueList → ValueList

/-- A plain object's own fields, in insertion order (keys unique). -/
inductive ValueFields where
  | nil : ValueFields
  | cons : String → Value → ValueFields → ValueFields

end

/-- Build a `ValueList` from a plain list. -/
def vlOfList : List Value → ValueList
  | [] => .nil
  | v :: rest => .cons v (vlOfList rest)

/-- Number of elements (JS `arr.length`). -/
def vlLength : ValueList → ℕ
  | .nil => 0
  | .cons _ rest => vlLength rest + 1

/-- Element at an index, defaulting. -/
def vlGetD : ValueList → ℕ → Value → Value
  | .nil, _, d => d
  | .cons v _, 0, _ => v
  | .cons _ rest, i + 1, d => vlGetD rest i d

/-- Build object fields from a plain association list. -/
def fofList : List (String × Value) → ValueFields
  | [] => .nil
  | (k, v) :: rest => .cons k v (fofList rest)

/-- Own-property read on a plain object (keys unique, first match). -/
def fget : ValueFields → String → Option Value
  | .nil, _ => none
  | .cons k v rest, key => if k = key then some v else fget rest key

/-- Association-list lookup (first match): models JS own-property read
(`Object.prototype.hasOwnProperty`-guarded access). -/
def oget {α : Type} : List (String × α) → String → Option α
  | [], _ => none
  | (k, v) :: rest, key => if k = key then some v else oget rest key

/-- Association-list write: models JS property assignment (overwrites in
place, preserving the key's original insertion position; appends new
keys). -/
def oset {α : Type} : List (String × α) → String → α → List (String × α)
  | [], key, v => [(key, v)]
  | (k, w) :: rest, key, v =>
    if k = key then (k, v) :: rest else (k, w) :: oset rest key v

/-! ## Structural string helpers

Core `String.trim` / `String.toUpper` / `String.toLower` are defined by
well-founded recursion over byte positions, which the kernel cannot
evaluate; these equivalents work on the char list (same semantics:
`Char.isWhitespace` at both ends, `Char.toUpper`/`Char.toLower` per
char).  JS additionally trims non-ASCII Unicode whitespace; the claims
only involve ASCII. -/

/-- `String.trim` (ASCII whitespace at both ends). -/
def trimStr (s : String) : String :=
  String.mk (((s.data.dropWhile Char.isWhitespace).reverse.dropWhile
    Char.isWhitespace).reverse)

/-- `String.toUpperCase`. -/
def upperStr (s : String) : String :=
  String.mk (s.data.map Char.toUpper)

/-- `String.toLowerCase`. -/
def lowerStr (s : String) : String :=
  String.mk (s.data.map Char.toLower)

/-! ## JS string-to-number conversion (`Number(string)`) -/

/-- Value of a decimal digit list (assumes every char is a digit). -/
def digitsFold (cs : List Char) : ℕ :=
  cs.foldl (fun a c => a * 10 + (c.toNat - 48)) 0

/-- Digit value in a given radix, if the char is a valid digit. -/
def radixDigit (radix : ℕ) (c : Char) : Option ℕ :=
  let v :=
    if '0' ≤ c ∧ c ≤ '9' then some (c.toNat - 48)
    else if 'a' ≤ c ∧ c ≤ 'f' then some (c.toNat - 87)
    else if 'A' ≤ c ∧ c ≤ 'F' then some (c.toNat - 55)
    else none
  match v with
  | some d => if d < radix then some d else none
  | none => none

/-- Fold a non-empty all-valid digit list in a radix. -/
def radixFold (radix : ℕ) : List Char → Option ℕ
  | [] => none
  | cs =>
    cs.foldl
      (fun a c =>
        match a, radixDigit radix c with
        | some n, some d => some (n * radix + d)
        | _, _ => none)
      (some 0)

/-- Split a char list at the first char satisfying `p`; the matching char
is consumed. -/
def splitOnFirst (p : Char → Bool) : List Char → (List Char × Option (List Char))
  | [] => ([], none)
  | c :: rest =>
    if p c then ([], some rest)
    else
      let r := splitOnFirst p rest
      (c :: r.1, r.2)

/-- Parse the mantissa of a decimal literal: `digits`, `digits.digits`,
`digits.` or `.digits` (at least one digit overall). -/
def parseMantissa (cs : List Char) : Option ℚ :=
  let s := splitOnFirst (· = '.') cs
  match s.2 with
  | none =>
    if cs ≠ [] ∧ cs.all Char.isDigit then some (digitsFold cs : ℚ) else none
  | some fp =>
    let ip := s.1
    if (ip ≠ [] ∨ fp ≠ []) ∧ ip.all Char.isDigit ∧ fp.all Char.isDigit then
      some ((digitsFold ip : ℚ) + (digitsFold fp : ℚ) / (10 : ℚ) ^ fp.length)
    else none

/-- Parse a signed decimal exponent (`digits` with optional sign). -/
def parseExponent (cs : List Char) : Option ℤ :=
  let signed : ℤ × List Char :=
    match cs with
    | '+' :: r => (1, r)
    | '-' :: r => (-1, r)
    | r => (1, r)
  if signed.2 ≠ [] ∧ signed.2.all Char.isDigit then
    some (signed.1 * (digitsFold signed.2 : ℤ))
  else none

/-- Parse a signed decimal numeric literal with optional exponent. -/
def parseDecLit (cs : List Char) : Option ℚ :=
  let signed : ℚ × List Char :=
    match cs with
    | '+' :: r => (1, r)
    | '-' :: r => (-1, r)
    | r => (1, r)
  let parts := splitOnFirst (fun c => c = 'e' || c = 'E') signed.2
  let mant := parseMantissa parts.1
  match parts.2 with
  | none => mant.map (signed.1 * ·)
  | some ecs =>
    match mant, parseExponent ecs with
    | some m, some e => some (signed.1 * m * (10 : ℚ) ^ e)
    | _, _ => none

/-- JS `Number(string)` (the StringNumericLiteral grammar): trims
whitespace, empty ⇒ `0`, `Infinity` forms, `0x`/`0o`/`0b` radix literals
(no sign), otherwise a signed decimal with optional fraction/exponent;
anything else is `NaN`. -/
def jsParseNumber (s : String) : JNum :=
  let t := (trimStr s).data
  if t = [] then .q 0
  else if t = "Infinity".data ∨ t = "+Infinity".data then .inf
  else if t = "-Infinity".data then .ninf
  else
    match t with
    | '0' :: 'x' :: r => ((radixFold 16 r).map (fun n => JNum.q n)).getD .nan
    | '0' :: 'X' :: r => ((radixFold 16 r).map (fun n => JNum.q n)).getD .nan
    | '0' :: 'o' :: r => ((radixFold 8 r).map (fun n => JNum.q n)).getD .nan
    | '0' :: 'O' :: r => ((radixFold 8 r).map (fun n => JNum.q n)).getD .nan
    | '0' :: 'b' :: r => ((radixFold 2 r).map (fun n => JNum.q n)).getD .nan
    | '0' :: 'B' :: r => ((radixFold 2 r).map (fun n => JNum.q n)).getD .nan
    | _ => ((parseDecLit t).map (fun x => JNum.q x)).getD .nan

/-! ## JS number-to-string conversion -/

/-- Decimal string of a natural number left-padded with zeros to `k`
digits. -/
def padZeros (n : ℕ) (k : ℕ) : String :=
  let s := toString n
  String.mk (List.replicate (k - s.length) '0') ++ s

/-- JS `String(number)`.  Exact for `NaN`, infinities, integers, and
rationals with a finite decimal expansion of at most 40 digits; for other
rationals (which a JS double cannot be anyway) a `num/den` placeholder is
produced — the shortest-round-trip printing of doubles is outside this
model. -/
def jnumToString : JNum → String
  | .nan => "NaN"
  | .inf => "Infinity"
  | .ninf => "-Infinity"
  | .q x =>
    if x.den = 1 then toString x.num
    else
      match (List.range 41).find? (fun k => (x * (10 : ℚ) ^ k).den = 1) with
      | some k =>
        let m := (x * (10 : ℚ) ^ k).num
        let a := m.natAbs
        (if m < 0 then "-" else "") ++ toString (a / 10 ^ k) ++ "." ++
          padZeros (a % 10 ^ k) k
      | none => toString x.num ++ "/" ++ toString x.den

/-! ## JS value-to-string conversion (`String(value)`) -/

mutual

/-- JS `String(value)`.  Arrays stringify as `join(",")`; plain objects as
`"[object Object]"`; the source text of a host function is not modelled. -/
def jsString : Value → String
  | .vundef => "undefined"
  | .vnull => "null"
  | .vbool b => cond b "true" "false"
  | .vnum n => jnumToString n
  | .vstr s => s
  | .vlist xs => jsStringElems xs
  | .vobj _ => "[object Object]"
  | .vfn _ => "[native function]"

/-- `Array.prototype.join(",")`: `null`/`undefined` elements become the
empty string. -/
def jsStringElems : ValueList → String
  | .nil => ""
  | .cons v .nil =>
    (match v with
     | .vundef => ""
     | .vnull => ""
     | w => jsString w)
  | .cons v rest =>
    (match v with
     | .vundef => ""
     | .vnull => ""
     | w => jsString w) ++ "," ++ jsStringElems rest

end

/-! ## Coercions and predicates -/

/-- JS `ToPrimitive` for our domain: arrays, objects and functions convert
via their string form (default `valueOf` is not primitive-valued for
them); primitives pass through. -/
def toPrimitive : Value → Value
  | .vlist xs => .vstr (jsString (.vlist xs))
  | .vobj fields => .vstr (jsString (.vobj fields))
  | .vfn f => .vstr (jsString (.vfn f))
  | v => v

/-- Full JS `ToNumber` (used by the host `+`, comparisons and loose
equality — not by the source's own `toNumber` helper). -/
def jsToNumber (v : Value) : JNum :=
  match toPrimitive v with
  | .vundef => .nan
  | .vnull => .q 0
  | .vbool b => if b then .q 1 else .q 0
  | .vnum n => n
  | .vstr s => jsParseNumber s
  | _ => .nan

/-- `toNumber` from `src/core/expr.ts` (lines 23–27): numbers pass
through; strings must be non-blank and parse to a non-`NaN` number;
everything else (booleans, null, undefined, objects …) is `NaN`. -/
def toNumber : Value → JNum
  | .vnum n => n
  | .vstr s => if trimStr s = "" then .nan else jsParseNumber s
  | _ => .nan

/-- JS truthiness (`Boolean(v)`): `undefined`, `null`, `false`, `0`,
`NaN` and `""` are falsy, everything else truthy.  (`-0` is not modelled;
it coincides with `0` here.) -/
def jsTruthy : Value → Bool
  | .vundef => false
  | .vnull => false
  | .vbool b => b
  | .vnum .nan => false
  | .vnum (.q x) => x != 0
  | .vnum _ => true
  | .vstr s => s != ""
  | _ => true

/-- Is the value an object in the JS sense (array / plain object /
function)? -/
def isObjLike : Value → Bool
  | .vlist _ => true
  | .vobj _ => true
  | .vfn _ => true
  | _ => false

/-- Is the value a string? -/
def isStringPrim : Value → Bool
  | .vstr _ => true
  | _ => false

/-- The host `+` operator (source line 386 applies JS `+` to the raw
operands): string concatenation as soon as either primitive form is a
string, numeric addition otherwise. -/
def jsAdd (l r : Value) : Value :=
  let lp := toPrimitive l
  let rp := toPrimitive r
  if isStringPrim lp || isStringPrim rp then
    .vstr (jsString lp ++ jsString rp)
  else
    .vnum (JNum.add (jsToNumber lp) (jsToNumber rp))

/-- Loose equality on primitives after boolean-to-number conversion. -/
def loosePrimEq (l r : Value) : Bool :=
  let conv : Value → Value := fun v =>
    match v with
    | .vbool b => .vnum (if b then .q 1 else .q 0)
    | w => w
  match conv l, conv r with
  | .vundef, .vundef => true
  | .vundef, .vnull => true
  | .vnull, .vundef => true
  | .vnull, .vnull => true
  | .vnum a, .vnum b => a.numEq b
  | .vstr a, .vstr b => a == b
  | .vnum a, .vstr s => a.numEq (jsParseNumber s)
  | .vstr s, .vnum b => (jsParseNumber s).numEq b
  | _, _ => false

/-- JS loose equality (`==`).  Reference identity of host objects is not
modelled: two object-like values compare unequal (JS compares their
references; in an expression the two sides are distinct references unless
the very same stored object reaches both, which this value model cannot
express). -/
def jsLooseEq (l r : Value) : Bool :=
  if isObjLike l && isObjLike r then false
  else loosePrimEq (toPrimitive l) (toPrimitive r)

/-- JS strict equality (`===`).  Object-like values compare by reference
in JS; see `jsLooseEq` for why they compare unequal here. -/
def jsStrictEq (l r : Value) : Bool :=
  match l, r with
  | .vundef, .vundef => true
  | .vnull, .vnull => true
  | .vbool a, .vbool b => a == b
  | .vnum a, .vnum b => a.numEq b
  | .vstr a, .vstr b => a == b
  | _, _ => false

/-- Numeric comparison; `none` when `NaN` is involved. -/
def JNum.cmp : JNum → JNum → Option Ordering
  | .nan, _ => none
  | _, .nan => none
  | .inf, .inf => some .eq
  | .inf, _ => some .gt
  | _, .inf => some .lt
  | .ninf, .ninf => some .eq
  | .ninf, _ => some .lt
  | _, .ninf => some .gt
  | .q a, .q b => some (compare a b)

/-- JS abstract relational comparison: both-strings compare
lexicographically (by code points here; JS uses UTF-16 units, which agree
on the Basic Multilingual Plane), otherwise numerically; `none` when a
`NaN` makes every relation false. -/
def jsCompare (l r : Value) : Option Ordering :=
  let lp := toPrimitive l
  let rp := toPrimitive r
  match lp, rp with
  | .vstr a, .vstr b => some (compare a b)
  | _, _ => JNum.cmp (jsToNumber lp) (jsToNumber rp)

/-- `safeGet` from `src/core/expr.ts` (lines 8–21): the three
prototype-pollution names are rejected before any lookup; plain objects
are read by key; arrays by a `Number(prop)` integer index in range;
everything else yields `undefined`.  (The source's `obj[prop]` on a plain
object would also find inherited `Object.prototype` members; the
prototype chain is outside this value model.) -/
def safeGet (obj : Value) (prop : String) : Value :=
  if prop = "__proto__" ∨ prop = "prototype" ∨ prop = "constructor" then
    .vundef
  else
    match obj with
    | .vobj fields => (fget fields prop).getD .vundef
    | .vlist xs =>
      match jsParseNumber prop with
      | .q x =>
        if x.den = 1 ∧ 0 ≤ x.num ∧ x.num < vlLength xs then
          vlGetD xs x.num.toNat .vundef
        else .vundef
      | _ => .vundef
    | _ => Value.vundef

/-! ## Function catalog helpers -/

/-- JS `x ?? d` (nullish coalescing). -/
def nvl (v d : Value) : Value :=
  match v with
  | .vundef => d
  | .vnull => d
  | _ => v

/-- The recurring source pattern `s == null ? '' : String(s)`
(equivalently `String(s ?? '')`). -/
def strOf (v : Value) : String :=
  match v with
  | .vundef => ""
  | .vnull => ""
  | _ => jsString v

/-- ECMA `ToLength(ToIntegerOrInfinity(n))`: `NaN`/negative ⇒ 0,
truncation, clamped to `2^53 - 1`. -/
def toLength (n : JNum) : ℕ :=
  match n with
  | .nan => 0
  | .ninf => 0
  | .inf => 2 ^ 53 - 1
  | .q x => if x ≤ 0 then 0 else min (JNum.truncQ x).toNat (2 ^ 53 - 1)

/-- Cyclic repetition of `filler` truncated to `k` chars (for non-empty
`filler`, `List.replicate k filler` flattens to at least `k` chars). -/
def padFill (filler : List Char) (k : ℕ) : List Char :=
  ((List.replicate k filler).flatten).take k

/-- ECMA `StringPad`: no-op when the target does not exceed the current
length or the filler is empty; otherwise the filler is repeated and
truncated to fill up to the target, at the start or the end.  The WHOLE
filler string is used, not only its first character. -/
def stringPad (s : String) (target : ℕ) (filler : String) (atStart : Bool) : String :=
  if target ≤ s.length ∨ filler = "" then s
  else
    let fill := String.mk (padFill filler.data (target - s.length))
    if atStart then fill ++ s else s ++ fill

/-- ECMA `ToIntegerOrInfinity` clamped into `[0, len]` (the clamping
`String.prototype.substring` applies to each argument). -/
def toIntClamped (n : JNum) (len : ℕ) : ℕ :=
  match n with
  | .nan => 0
  | .ninf => 0
  | .inf => len
  | .q x => if x ≤ 0 then 0 else min (JNum.truncQ x).toNat len

/-- JS `String.prototype.substring(start, end?)`: clamp both indices into
range, swap when reversed. -/
def jsSubstring (s : String) (st : JNum) (en : Option JNum) : String :=
  let len := s.length
  let a := toIntClamped st len
  let b := match en with
    | none => len
    | some e => toIntClamped e len
  String.mk ((s.data.drop (min a b)).take (max a b - min a b))

/-- First-occurrence string replacement, as JS `String.replace` with a
string search.  (`$`-substitution patterns inside the replacement are not
modelled; no claim touches them.) -/
def replaceFirstAux (search repl : List Char) : List Char → List Char
  | [] => []
  | c :: rest =>
    if search.isPrefixOf (c :: rest) then
      repl ++ (c :: rest).drop search.length
    else c :: replaceFirstAux search repl rest

/-- JS `s.replace(search, repl)` for string `search` (first occurrence
only; an empty search inserts at the start). -/
def replaceFirst (s search repl : String) : String :=
  if search = "" then repl ++ s
  else String.mk (replaceFirstAux search.data repl.data s.data)

/-- Four-digit lowercase hex (for JSON control-character escapes). -/
def hex4 (n : ℕ) : String :=
  let dig := fun (d : ℕ) =>
    if d < 10 then Char.ofNat (48 + d) else Char.ofNat (87 + d)
  String.mk [dig (n / 4096 % 16), dig (n / 256 % 16), dig (n / 16 % 16), dig (n % 16)]

/-- JSON string-character escaping. -/
def jsonEscapeChar (c : Char) : String :=
  if c = '"' then "\\\""
  else if c = '\\' then "\\\\"
  else if c = '\n' then "\\n"
  else if c = '\r' then "\\r"
  else if c = '\t' then "\\t"
  else if c = Char.ofNat 8 then "\\b"
  else if c = Char.ofNat 12 then "\\f"
  else if c.toNat < 32 then "\\u" ++ hex4 c.toNat
  else String.mk [c]

/-- JSON string quoting. -/
def jsonQuote (s : String) : String :=
  "\"" ++ String.join (s.data.map jsonEscapeChar) ++ "\""

mutual

/-- JS `JSON.stringify`: `none` models the JS call returning `undefined`
(for `undefined` and function values). -/
def jsonStringify : Value → Option String
  | .vundef => none
  | .vfn _ => none
  | .vnull => some "null"
  | .vbool b => some (cond b "true" "false")
  | .vnum (.q x) => some (jnumToString (.q x))
  | .vnum _ => some "null"
  | .vstr s => some (jsonQuote s)
  | .vlist xs => some ("[" ++ jsonElems xs ++ "]")
  | .vobj fields => some ("\x7b" ++ jsonFields fields ++ "\x7d")

/-- Array elements: unserializable entries become `null`. -/
def jsonElems : ValueList → String
  | .nil => ""
  | .cons v .nil => (jsonStringify v).getD "null"
  | .cons v rest => (jsonStringify v).getD "null" ++ "," ++ jsonElems rest

/-- Object entries: unserializable values are skipped. -/
def jsonFields : ValueFields → String
  | .nil => ""
  | .cons k v rest =>
    let tail := jsonFields rest
    match jsonStringify v with
    | none => tail
    | some s => jsonQuote k ++ ":" ++ s ++ (if tail = "" then "" else "," ++ tail)

end

namespace JNum

/-- `Math.abs` after `toNumber`. -/
def absJs : JNum → JNum
  | nan => nan
  | inf => inf
  | ninf => inf
  | q x => q |x|

/-- `Math.round` (half-up, toward +∞). -/
def roundJs : JNum → JNum
  | nan => nan
  | inf => inf
  | ninf => ninf
  | q x => q (⌊x + 1 / 2⌋ : ℤ)

/-- `Math.floor`. -/
def floorJs : JNum → JNum
  | nan => nan
  | inf => inf
  | ninf => ninf
  | q x => q (⌊x⌋ : ℤ)

/-- `Math.ceil`. -/
def ceilJs : JNum → JNum
  | nan => nan
  | inf => inf
  | ninf => ninf
  | q x => q (⌈x⌉ : ℤ)

/-- Binary minimum ignoring `NaN` (handled before folding). -/
def min2 : JNum → JNum → JNum
  | nan, _ => nan
  | _, nan => nan
  | ninf, _ => ninf
  | _, ninf => ninf
  | inf, x => x
  | x, inf => x
  | q a, q b => q (min a b)

/-- Binary maximum ignoring `NaN`. -/
def max2 : JNum → JNum → JNum
  | nan, _ => nan
  | _, nan => nan
  | inf, _ => inf
  | _, inf => inf
  | ninf, x => x
  | x, ninf => x
  | q a, q b => q (max a b)

end JNum

/-- `Math.min(...)`: `NaN` wins; the fold starts from `+Infinity`. -/
def jsMathMin (args : List JNum) : JNum :=
  if args.any (· = .nan) then .nan else args.foldl JNum.min2 .inf

/-- `Math.max(...)`: `NaN` wins; the fold starts from `-Infinity`. -/
def jsMathMax (args : List JNum) : JNum :=
  if args.any (· = .nan) then .nan else args.foldl JNum.max2 .ninf

/-- The `i`-th argument of a variadic JS call (`undefined` when absent). -/
def argN (args : List Value) (i : ℕ) : Value :=
  args.getD i Value.vundef

/-- Semantics of the default catalog (`defaultFunctions` in
`src/core/expr.ts`, lines 266–332).  The five date/time builtins
(`now`, `addDays`, `addMonths`, `addYears`, `formatDate`) operate on host
`Date` objects, which are outside this value model; no claim under
verification touches them, so they are modelled as failing. -/
def applyFn (f : Fn) (args : List Value) : Except String Value :=
  match f with
  | .concat =>
    .ok (.vstr (String.join (args.map strOf)))
  | .upper => .ok (.vstr (upperStr (strOf (argN args 0))))
  | .lower => .ok (.vstr (lowerStr (strOf (argN args 0))))
  | .trim => .ok (.vstr (trimStr (strOf (argN args 0))))
  | .padStart =>
    let s := strOf (argN args 0)
    let target := toLength (jsToNumber (nvl (argN args 1) (.vnum (.q 0))))
    let filler :=
      match argN args 2 with
      | .vundef => " "
      | .vnull => " "
      | v => jsString v
    .ok (.vstr (stringPad s target filler true))
  | .padEnd =>
    let s := strOf (argN args 0)
    let target := toLength (jsToNumber (nvl (argN args 1) (.vnum (.q 0))))
    let filler :=
      match argN args 2 with
      | .vundef => " "
      | .vnull => " "
      | v => jsString v
    .ok (.vstr (stringPad s target filler false))
  | .replace =>
    .ok (.vstr (replaceFirst (strOf (argN args 0)) (strOf (argN args 1))
      (strOf (argN args 2))))
  | .substr =>
    let str := strOf (argN args 0)
    let st := jsToNumber (nvl (argN args 1) (.vnum (.q 0)))
    (match argN args 2 with
     | .vundef => .ok (.vstr (jsSubstring str st none))
     | .vnull => .ok (.vstr (jsSubstring str st none))
     | lenv => .ok (.vstr (jsSubstring str st (some (JNum.add st (jsToNumber lenv))))))
  | .abs => .ok (.vnum (toNumber (argN args 0)).absJs)
  | .round => .ok (.vnum (toNumber (argN args 0)).roundJs)
  | .floor => .ok (.vnum (toNumber (argN args 0)).floorJs)
  | .ceil => .ok (.vnum (toNumber (argN args 0)).ceilJs)
  | .min => .ok (.vnum (jsMathMin (args.map toNumber)))
  | .max => .ok (.vnum (jsMathMax (args.map toNumber)))
  | .coalesce =>
    .ok ((args.find? (fun v =>
      match v with
      | .vnull => false
      | .vundef => false
      | _ => true)).getD .vundef)
  | .json =>
    .ok ((jsonStringify (argN args 0)).elim .vundef .vstr)
  | .now => .error "date builtins are outside this embedding"
  | .addDays => .error "date builtins are outside this embedding"
  | .addMonths => .error "date builtins are outside this embedding"
  | .addYears => .error "date builtins are outside this embedding"
  | .formatDate => .error "date builtins are outside this embedding"

/-- A function catalog: name → function, own entries only (the source
guards catalog lookup with `Object.prototype.hasOwnProperty.call`, so an
association list is a faithful model — inherited `Object.prototype`
members are never consulted). -/
def FunctionMap : Type := List (String × Fn)

/-- `defaultFunctions()` from `src/core/expr.ts`: the names of the default
catalog, in source order. -/
def defaultFunctions : FunctionMap :=
  [("concat", .concat), ("upper", .upper), ("lower", .lower),
   ("trim", .trim), ("padStart", .padStart), ("padEnd", .padEnd),
   ("replace", .replace), ("substr", .substr), ("abs", .abs),
   ("round", .round), ("floor", .floor), ("ceil", .ceil),
   ("min", .min), ("max", .max), ("coalesce", .coalesce),
   ("json", .json), ("now", .now), ("addDays", .addDays),
   ("addMonths", .addMonths), ("addYears", .addYears),
   ("formatDate", .formatDate)]

/-! ## The AST node contract and the evaluator -/

mutual

/-- The AST node shapes the evaluator consumes (produced by the external
parser `jsep`).  A non-computed member's property is always an
`Identifier`, kept here as its name; a computed member's property
expression is never inspected (the evaluator rejects computed access
before looking at it), so it is not represented.  `other` stands for any
further node type the parser can produce (`Compound`, …), which the
evaluator rejects by name. -/
inductive Expr where
  | lit (v : Value)
  | ident (name : String)
  | unary (op : String) (arg : Expr)
  | binary (op : String) (l r : Expr)
  | logical (op : String) (l r : Expr)
  | cond (test consequent alternate : Expr)
  | member (obj : Expr) (computed : Bool) (prop : String)
  | call (callee : Expr) (args : ExprList)
  | arr (elements : ExprList)
  | objE (props : PropList)
  | other (typeName : String)

/-- Argument / element node lists. -/
inductive ExprList where
  | nil : ExprList
  | cons : Expr → ExprList → ExprList

/-- Object-literal properties: computed flag, key, value node. -/
inductive PropList where
  | nil : PropList
  | cons : Bool → String → Expr → PropList → PropList

end

/-- `EvalContext` from `src/core/types.ts`: the four namespaces.  `row`
is optional in the source (absent ⇒ `undefined`). -/
structure EvalContext where
  inputs : Value
  constants : Value
  vars : Value
  row : Value

/-- `Omit<EvalContext, "vars">` — what `evaluateVariables` receives. -/
structure BaseContext where
  inputs : Value
  constants : Value
  row : Value

/-- `{ ...ctxBase, vars }`. -/
def mkCtx (b : BaseContext) (vars : Value) : EvalContext :=
  ⟨b.inputs, b.constants, vars, b.row⟩

/-- The `Identifier` case of `evalAst` (source lines 348–363): reserved
words, the four namespaces, then an own-entry catalog lookup, otherwise
"absent".  Factored out because the `CallExpression` case also resolves
its (identifier) callee through exactly this path. -/
def resolveIdent (name : String) (ctx : EvalContext) (functions : FunctionMap) : Value :=
  if name = "true" then .vbool true
  else if name = "false" then .vbool false
  else if name = "null" then .vnull
  else if name = "undefined" then .vundef
  else if name = "inputs" then ctx.inputs
  else if name = "constants" then ctx.constants
  else if name = "vars" then ctx.vars
  else if name = "row" then ctx.row
  else
    match oget functions name with
    | some f => .vfn f
    | none => .vundef

mutual

/-- `evalAst` from `src/core/expr.ts` (lines 343–474). -/
def evalAst : Expr → EvalContext → FunctionMap → Except String Value
  | .lit v, _, _ => .ok v
  | .ident name, ctx, functions => .ok (resolveIdent name ctx functions)
  | .unary op a, ctx, functions => do
    let arg ← evalAst a ctx functions
    if op = "!" then .ok (.vbool (!jsTruthy arg))
    else if op = "+" then .ok (.vnum (toNumber arg))
    else if op = "-" then .ok (.vnum (toNumber arg).neg)
    else .error ("Unsupported unary operator: " ++ op)
  | .binary op l r, ctx, functions => do
    let lv ← evalAst l ctx functions
    let rv ← evalAst r ctx functions
    if op = "+" then .ok (jsAdd lv rv)
    else if op = "-" then .ok (.vnum (JNum.sub (toNumber lv) (toNumber rv)))
    else if op = "*" then .ok (.vnum (JNum.mul (toNumber lv) (toNumber rv)))
    else if op = "/" then .ok (.vnum (JNum.div (toNumber lv) (toNumber rv)))
    else if op = "%" then .ok (.vnum (JNum.mod (toNumber lv) (toNumber rv)))
    else if op = "==" then .ok (.vbool (jsLooseEq lv rv))
    else if op = "!=" then .ok (.vbool (!jsLooseEq lv rv))
    else if op = "===" then .ok (.vbool (jsStrictEq lv rv))
    else if op = "!==" then .ok (.vbool (!jsStrictEq lv rv))
    else if op = "<" then .ok (.vbool (jsCompare lv rv == some .lt))
    else if op = "<=" then
      .ok (.vbool (jsCompare lv rv == some .lt || jsCompare lv rv == some .eq))
    else if op = ">" then .ok (.vbool (jsCompare lv rv == some .gt))
    else if op = ">=" then
      .ok (.vbool (jsCompare lv rv == some .gt || jsCompare lv rv == some .eq))
    else .error ("Unsupported binary operator: " ++ op)
  | .logical op l r, ctx, functions =>
    if op = "&&" then do
      let lv ← evalAst l ctx functions
      if jsTruthy lv then evalAst r ctx functions else .ok lv
    else if op = "||" then do
      let lv ← evalAst l ctx functions
      if jsTruthy lv then .ok lv else evalAst r ctx functions
    else .error ("Unsupported logical operator: " ++ op)
  | .cond t c a, ctx, functions => do
    let tv ← evalAst t ctx functions
    if jsTruthy tv then evalAst c ctx functions else evalAst a ctx functions
  | .member obj computed prop, ctx, functions =>
    if computed then .error "Computed member access is not allowed"
    else do
      let objVal ← evalAst obj ctx functions
      .ok (safeGet objVal prop)
  | .call callee args, ctx, functions =>
    -- the source first rejects a non-Identifier callee, then resolves the
    -- identifier via `evalAst` (= `resolveIdent`), rejects non-functions
    -- (BEFORE evaluating any argument), then evaluates arguments eagerly
    (match callee with
     | .ident n =>
       (match resolveIdent n ctx functions with
        | .vfn f => do
          let evaluatedArgs ← evalArgs args ctx functions
          applyFn f evaluatedArgs
        | _ => .error ("Unknown function: " ++ n))
     | _ => .error "Only direct function calls are allowed")
  | .arr elements, ctx, functions => do
    .ok (.vlist (vlOfList (← evalArgs elements ctx functions)))
  | .objE props, ctx, functions => do
    .ok (.vobj (fofList (← evalProps props ctx functions [])))
  | .other typeName, _, _ =>
    .error ("Unsupported expression node type: " ++ typeName)

/-- Eager left-to-right evaluation of a node list (the first failure
propagates). -/
def evalArgs : ExprList → EvalContext → FunctionMap → Except String (List Value)
  | .nil, _, _ => .ok []
  | .cons e rest, ctx, functions => do
    let v ← evalAst e ctx functions
    let vs ← evalArgs rest ctx functions
    .ok (v :: vs)

/-- Object-literal evaluation: rejects computed keys, assigns in order
(duplicate keys overwrite in place). -/
def evalProps :
    PropList → EvalContext → FunctionMap →
    List (String × Value) → Except String (List (String × Value))
  | .nil, _, _, acc => .ok acc
  | .cons computed key value rest, ctx, functions, acc =>
    if computed then .error "Computed object keys are not allowed"
    else do
      let v ← evalAst value ctx functions
      evalProps rest ctx functions (oset acc key v)

end

/-- `evalExpression` from `src/core/expr.ts`: parse, then evaluate.  The
parser (`jsep`) is an external collaborator, passed explicitly; the
source's optional-catalog default is made explicit at call sites. -/
def evalExpression (parse : String → Except String Expr) (expr : String)
    (ctx : EvalContext) (functions : FunctionMap) : Except String Value :=
  match parse expr with
  | .ok ast => evalAst ast ctx functions
  | .error m => .error m

/-! ## Variable dependency resolver (`src/core/vars.ts`) -/

mutual

/-- The AST walk of `collectVarDeps`: a non-computed member whose object
is the identifier `vars` contributes its property name; all child nodes
are visited. -/
def collectVarDepsAst : Expr → List String
  | .lit _ => []
  | .ident _ => []
  | .unary _ a => collectVarDepsAst a
  | .binary _ l r => collectVarDepsAst l ++ collectVarDepsAst r
  | .logical _ l r => collectVarDepsAst l ++ collectVarDepsAst r
  | .cond t c a =>
    collectVarDepsAst t ++ collectVarDepsAst c ++ collectVarDepsAst a
  | .member obj computed prop =>
    (match computed, obj with
     | false, .ident n => if n = "vars" then [prop] else []
     | _, _ => []) ++ collectVarDepsAst obj
  | .call callee args => collectVarDepsAst callee ++ collectVarDepsList args
  | .arr elements => collectVarDepsList elements
  | .objE props => collectVarDepsProps props
  | .other _ => []

def collectVarDepsList : ExprList → List String
  | .nil => []
  | .cons e rest => collectVarDepsAst e ++ collectVarDepsList rest

def collectVarDepsProps : PropList → List String
  | .nil => []
  | .cons _ _ v rest => collectVarDepsAst v ++ collectVarDepsProps rest

end

/-- JS `Set` insertion order: keep the first occurrence of each name. -/
def dedupFirst (xs : List String) : List String :=
  xs.foldl (fun acc x => if x ∈ acc then acc else acc ++ [x]) []

/-- `collectVarDeps` from `src/core/vars.ts`: parse, then scan for direct
`vars.<name>` reads (a parse failure propagates as an error). -/
def collectVarDeps (parse : String → Except String Expr) (expr : String) :
    Except String (List String) :=
  match parse expr with
  | .ok ast => .ok (dedupFirst (collectVarDepsAst ast))
  | .error m => .error m

/-- The mutable state of one resolution pass. -/
structure VarState where
  vars : List (String × Value)
  errors : List String
  visiting : List String
  visited : List String

/-- The result record of `evaluateVariables`. -/
structure VarsResult where
  vars : List (String × Value)
  errors : List String

/-- The recursive `evalVar` closure of `evaluateVariables`.  Fuel bounds
the recursion depth for Lean's termination checker only: every nested
call strictly grows `visiting`, so a depth of (number of declared keys
+ 1) is never exhausted; the zero-fuel branch is unreachable. -/
def evalVar (parse : String → Except String Expr)
    (variableExprs : List (String × String))
    (depsByVar : List (String × List String)) (ctxBase : BaseContext)
    (functions : FunctionMap) : ℕ → String → VarState → VarState
  | 0, _, st => st
  | fuel + 1, key, st =>
    if key ∈ st.visited then st
    else if key ∈ st.visiting then
      { st with errors := st.errors ++ ["Cycle detected in vars: " ++ key] }
    else
      let st1 : VarState := { st with visiting := st.visiting ++ [key] }
      let deps := (oget depsByVar key).getD []
      let st2 := deps.foldl
        (fun acc dep =>
          if (oget variableExprs dep).isSome then
            evalVar parse variableExprs depsByVar ctxBase functions fuel dep acc
          else acc)
        st1
      let st3 :=
        match oget variableExprs key with
        | some src =>
          (match evalExpression parse src (mkCtx ctxBase (.vobj (fofList st2.vars)))
              functions with
           | .ok v => { st2 with vars := oset st2.vars key v }
           | .error m =>
             { st2 with errors := st2.errors ++ ["vars." ++ key ++ ": " ++ m] })
        | none => st2
        -- `none` is unreachable: `evalVar` is only invoked on declared keys
        -- (the source indexes `variableExprs[key]!` with a non-null assertion).
      { st3 with visiting := st3.visiting.erase key, visited := st3.visited ++ [key] }

/-- `evaluateVariables` from `src/core/vars.ts` (the claims cite it at
`expr.ts` lines 682–728): collect per-variable dependency sets (a parse
failure records an error and an empty set), then resolve every declared
variable depth-first with visiting/visited marks. -/
def evaluateVariables (parse : String → Except String Expr)
    (variableExprs : List (String × String)) (ctxBase : BaseContext)
    (functions : FunctionMap) : VarsResult :=
  let phase1 := variableExprs.map (fun kv =>
    match collectVarDeps parse kv.2 with
    | .ok deps => ((kv.1, deps), (none : Option String))
    | .error m => ((kv.1, ([] : List String)), some ("vars." ++ kv.1 ++ ": " ++ m)))
  let depsByVar := phase1.map (·.1)
  let initSt : VarState := ⟨[], phase1.filterMap (·.2), [], []⟩
  let finalSt := (variableExprs.map (·.1)).foldl
    (fun st key =>
      evalVar parse variableExprs depsByVar ctxBase functions
        (variableExprs.length + 1) key st)
    initSt
  ⟨finalSt.vars, finalSt.errors⟩

/-! ## Visibility predicate (`evalBoolean`, `src/core/evaluate.ts`) -/

/-- `evalBoolean` from `src/core/evaluate.ts` (lines 21–29): an absent or
empty expression is visible; otherwise `Boolean(evalExpression(...))`,
with any failure swallowed as `false`. -/
def evalBoolean (parse : String → Except String Expr) (expr : Option String)
    (ctx : EvalContext) (functions : FunctionMap) : Bool :=
  match expr with
  | none => true
  | some e =>
    if e = "" then true
    else
      match evalExpression parse e ctx functions with
      | .ok v => jsTruthy v
      | .error _ => false

/-! ## Template string renderer (`renderTemplateString`) -/

/-- Does the text contain `{{`?  (JS `tpl.includes(...)` on the opening
delimiter.) -/
def hasOpen : List Char → Bool
  | [] => false
  | [_] => false
  | c :: d :: rest => (c == '{' && d == '{') || hasOpen (d :: rest)

/-- Does the text contain `}}`? -/
def hasClose : List Char → Bool
  | [] => false
  | [_] => false
  | c :: d :: rest => (c == '}' && d == '}') || hasClose (d :: rest)

/-- The replacement callback of `renderTemplateString`: trim the span
body, evaluate; `undefined`/`null` render empty, a failure renders the
bracketed inline marker. -/
def renderSpanText (parse : String → Except String Expr) (ctx : EvalContext)
    (functions : FunctionMap) (inner : List Char) : List Char :=
  let expr := trimStr (String.mk inner)
  if expr = "" then []
  else
    match evalExpression parse expr ctx functions with
    | .ok v =>
      (match v with
       | .vundef => []
       | .vnull => []
       | _ => (jsString v).data)
    | .error m => ("[expr error: " ++ m ++ "]").data

mutual

/-- The global non-greedy replacement `tpl.replace(re, cb)` for the span
pattern `\x7b\x7b([\s\S]*?)\x7d\x7d`: copy text until the leftmost `{{`,
then collect the shortest body up to the next `}}` (`spanScan`), replace
it, continue after the close. -/
def scanTpl (parse : String → Except String Expr) (ctx : EvalContext)
    (functions : FunctionMap) : List Char → List Char
  | [] => []
  | [c] => [c]
  | c :: d :: rest =>
    if c = '{' ∧ d = '{' then spanScan parse ctx functions rest []
    else c :: scanTpl parse ctx functions (d :: rest)

/-- Collect a span body (accumulated reversed in `acc`) until the first
`}}`; a `{{` with no close ahead passes through unchanged, exactly as the
regex leaves an unmatched tail untouched. -/
def spanScan (parse : String → Except String Expr) (ctx : EvalContext)
    (functions : FunctionMap) : List Char → List Char → List Char
  | [], acc => '{' :: '{' :: acc.reverse
  | [c], acc => '{' :: '{' :: (acc.reverse ++ [c])
  | c :: d :: rest, acc =>
    if c = '}' ∧ d = '}' then
      renderSpanText parse ctx functions acc.reverse ++
        scanTpl parse ctx functions rest
    else spanScan parse ctx functions (d :: rest) (c :: acc)

end

/-- `renderTemplateString` (replacement rendering of `{{ … }}` spans): a
template without `{{` is returned as-is before any further work.  Total by
construction — every input yields a string. -/
def renderTemplateString (parse : String → Except String Expr) (tpl : String)
    (ctx : EvalContext) (functions : FunctionMap) : String :=
  if hasOpen tpl.data then String.mk (scanTpl parse ctx functions tpl.data)
  else tpl

/-! ## Definitions supporting the claim theorems -/

/-- Truthiness as the SPECIFICATION words it (§4.1 / glossary): exactly
absent, null, false, 0 and the empty string are falsy, "everything else"
— including `NaN` — truthy.  Stated from the spec's words, for comparison
with the code's `jsTruthy` (JS `Boolean`, under which `NaN` is falsy). -/
def specTruthy : Value → Bool
  | .vundef => false
  | .vnull => false
  | .vbool b => b
  | .vnum (.q x) => x != 0
  | .vstr s => s != ""
  | _ => true

/-- A concrete parser covering the handful of source texts the witnesses
and counterexamples use, each mapped to the AST `jsep` produces for it. -/
def parseStub : String → Except String Expr
  | "vars.B" => .ok (.member (.ident "vars") false "B")
  | "vars.A" => .ok (.member (.ident "vars") false "A")
  | "2" => .ok (.lit (.vnum (.q 2)))
  | "vars.B + 1" =>
    .ok (.binary "+" (.member (.ident "vars") false "B") (.lit (.vnum (.q 1))))
  | "1 % 0" => .ok (.binary "%" (.lit (.vnum (.q 1))) (.lit (.vnum (.q 0))))
  | _ => .error "parse error"

/-- An evaluation context with empty namespaces. -/
def emptyCtx : EvalContext :=
  ⟨.vobj .nil, .vobj .nil, .vobj .nil, .vundef⟩

/-- A base context (no `vars`) with empty namespaces. -/
def baseCtx : BaseContext :=
  ⟨.vobj .nil, .vobj .nil, .vundef⟩

/-- One resolver step for a variable: on success its key is written, on
failure an error tagged with its name is appended.  Used to state what
`evaluateVariables` produces for two-variable definition sets. -/
def stepOutcome (key : String) (r : Except String Value)
    (vars : List (String × Value)) (errors : List String) :
    List (String × Value) × List String :=
  match r with
  | .ok v => (oset vars key v, errors)
  | .error m => (vars, errors ++ ["vars." ++ key ++ ": " ++ m])

/-- `toPrimitive` is idempotent. -/
theorem toPrimitive_toPrimitive (v : Value) :
    toPrimitive (toPrimitive v) = toPrimitive v := by
  cases v <;> rfl

/-- `jsToNumber` only looks at the primitive form. -/
theorem jsToNumber_toPrimitive (v : Value) :
    jsToNumber (toPrimitive v) = jsToNumber v := by
  unfold jsToNumber
  rw [toPrimitive_toPrimitive]

/-! ## Claim C2 — binary `+` and the numeric operators -/

/-- C2, counterexample: the claim says `+` concatenates exactly when
either operand is non-numeric-after-coercion and one side is a string;
but for `"5" + "3"` BOTH operands are numeric-after-coercion
(`toNumber` yields 5 and 3), yet the code concatenates to `"53"` instead
of performing the numeric addition the claim's "otherwise" branch
demands. -/
theorem c2_counterexample :
    evalAst (.binary "+" (.lit (.vstr "5")) (.lit (.vstr "3"))) emptyCtx
        defaultFunctions = .ok (.vstr "53") ∧
    toNumber (.vstr "5") = .q 5 ∧
    toNumber (.vstr "3") = .q 3 ∧
    Value.vstr "53" ≠ .vnum (JNum.add (toNumber (.vstr "5")) (toNumber (.vstr "3"))) :=
  ⟨rfl, by decide, by decide, fun h => Value.noConfusion h⟩

/-- C2, amended: a binary `+` concatenates exactly when at least one
operand's primitive form is a string — regardless of numeric
coercibility — and adds the `ToNumber` images otherwise; `-`, `*`, `/`
and `%` always route both operands through the source's `toNumber`
(so `"5" - "3"` evaluates to `2`). -/
theorem c2_amended (vl vr : Value) (ctx : EvalContext) (fns : FunctionMap) :
    (evalAst (.binary "+" (.lit vl) (.lit vr)) ctx fns =
      .ok (if isStringPrim (toPrimitive vl) || isStringPrim (toPrimitive vr) then
             .vstr (jsString (toPrimitive vl) ++ jsString (toPrimitive vr))
           else
             .vnum (JNum.add (jsToNumber vl) (jsToNumber vr)))) ∧
    (evalAst (.binary "-" (.lit vl) (.lit vr)) ctx fns =
      .ok (.vnum (JNum.sub (toNumber vl) (toNumber vr)))) ∧
    (evalAst (.binary "*" (.lit vl) (.lit vr)) ctx fns =
      .ok (.vnum (JNum.mul (toNumber vl) (toNumber vr)))) ∧
    (evalAst (.binary "/" (.lit vl) (.lit vr)) ctx fns =
      .ok (.vnum (JNum.div (toNumber vl) (toNumber vr)))) ∧
    (evalAst (.binary "%" (.lit vl) (.lit vr)) ctx fns =
      .ok (.vnum (JNum.mod (toNumber vl) (toNumber vr)))) ∧
    evalAst (.binary "-" (.lit (.vstr "5")) (.lit (.vstr "3"))) ctx fns =
      .ok (.vnum (.q 2)) := by
  refine ⟨?_, rfl, rfl, rfl, rfl, rfl⟩
  show Except.ok (jsAdd vl vr) = _
  simp only [jsAdd, jsToNumber_toPrimitive]

/-! ## Claim C3 — prototype-pollution member names -/

/-- C3, counterexample: bracket-style (computed) access does NOT evaluate
to "absent" as the claim states — the evaluator rejects it with an error
before looking at the property at all. -/
theorem c3_counterexample :
    evalAst (.member (.lit (.vobj (fofList [("__proto__", .vnum (.q 7))]))) true
        "__proto__") emptyCtx defaultFunctions
      = .error "Computed member access is not allowed" := rfl

/-- C3, amended: DOT access to `__proto__` / `prototype` / `constructor`
always evaluates to "absent" (even when the underlying object carries such
an own entry), while bracket-style/computed access — to any property —
fails with the computed-access error; in neither form can the underlying
prototype or constructor be reached. -/
theorem c3_amended (e : Expr) (v : Value) (ctx : EvalContext)
    (fns : FunctionMap) (prop : String)
    (hprop : prop = "__proto__" ∨ prop = "prototype" ∨ prop = "constructor")
    (he : evalAst e ctx fns = .ok v) :
    evalAst (.member e false prop) ctx fns = .ok .vundef ∧
    ∀ (e2 : Expr) (p2 : String),
      evalAst (.member e2 true p2) ctx fns =
        .error "Computed member access is not allowed" := by
  constructor
  · have hm : evalAst (.member e false prop) ctx fns =
        (evalAst e ctx fns).bind (fun objVal => .ok (safeGet objVal prop)) := rfl
    rw [hm, he]
    rcases hprop with rfl | rfl | rfl <;> simp [Except.bind, safeGet]
  · intro e2 p2
    rfl

/-- C3, witness for the amended theorem at a concrete object that HAS an
own `prototype` entry. -/
theorem c3_witness :
    evalAst (.member (.lit (.vobj (fofList [("prototype", .vnum (.q 7))]))) false
        "prototype") emptyCtx defaultFunctions = .ok .vundef :=
  (c3_amended (.lit (.vobj (fofList [("prototype", .vnum (.q 7))])))
    (.vobj (fofList [("prototype", .vnum (.q 7))])) emptyCtx defaultFunctions
    "prototype" (Or.inr (Or.inl rfl)) rfl).1

/-! ## Claim C6 — the truthiness rule of `!` -/

/-- C6, counterexample: `NaN` is outside the claim's five-element falsy
set (absent, null, false, 0, empty string) — `specTruthy`, the rule as
the spec words it, calls it truthy — yet `!NaN` evaluates to `true`, not
the `false` the claim demands. -/
theorem c6_counterexample :
    evalAst (.unary "!" (.lit (.vnum .nan))) emptyCtx defaultFunctions
      = .ok (.vbool true) ∧
    specTruthy (.vnum .nan) = true :=
  ⟨rfl, rfl⟩

/-- C6, amended: `!` negates JS truthiness, whose falsy set is the
claim's five values PLUS `NaN`: `!v` evaluates to `true` exactly on
absent, null, false, 0, `NaN` and the empty string. -/
theorem c6_amended (v : Value) (ctx : EvalContext) (fns : FunctionMap) :
    evalAst (.unary "!" (.lit v)) ctx fns = .ok (.vbool (!jsTruthy v)) ∧
    (jsTruthy v = false ↔
      (v = .vundef ∨ v = .vnull ∨ v = .vbool false ∨ v = .vnum (.q 0) ∨
        v = .vnum .nan ∨ v = .vstr "")) := by
  refine ⟨rfl, ?_⟩
  cases v with
  | vbool b => cases b <;> simp [jsTruthy]
  | vnum n => cases n <;> simp [jsTruthy]
  | vstr s => simp [jsTruthy]
  | _ => simp [jsTruthy]

/-! ## Claim C9 — unknown identifiers resolve to "absent" -/

/-- C9: an identifier that is not a reserved word (`true`/`false`/`null`
and the absent sentinel `undefined`), not one of the four namespace names,
and not a catalog entry evaluates to "absent" — with `Except.ok`, i.e.
never an error. -/
theorem c9 (name : String) (ctx : EvalContext) (fns : FunctionMap)
    (h1 : name ≠ "true") (h2 : name ≠ "false") (h3 : name ≠ "null")
    (h4 : name ≠ "undefined") (h5 : name ≠ "inputs") (h6 : name ≠ "constants")
    (h7 : name ≠ "vars") (h8 : name ≠ "row")
    (hcat : oget fns name = none) :
    evalAst (.ident name) ctx fns = .ok .vundef := by
  show Except.ok (resolveIdent name ctx fns) = _
  simp [resolveIdent, h1, h2, h3, h4, h5, h6, h7, h8, hcat]

/-- C9, witness: a fresh identifier against the default catalog. -/
theorem c9_witness :
    evalAst (.ident "unknownName") emptyCtx defaultFunctions = .ok .vundef :=
  c9 "unknownName" emptyCtx defaultFunctions (by decide) (by decide) (by decide)
    (by decide) (by decide) (by decide) (by decide) (by decide) rfl

/-! ## Claim C10 — catalog lookup consults own entries only -/

/-- C10: catalog lookup during identifier resolution is an own-entry
lookup (the source guards it with `Object.prototype.hasOwnProperty.call`,
modelled by the association-list `oget`).  Any non-reserved name with no
own catalog entry — e.g. an inherited `Object.prototype` member such as
`toString` — evaluates to "absent" as an identifier, and a call with that
callee fails with the unknown-function error (before evaluating any
argument), never invoking a host built-in. -/
theorem c10 (name : String) (args : ExprList) (ctx : EvalContext)
    (fns : FunctionMap)
    (h1 : name ≠ "true") (h2 : name ≠ "false") (h3 : name ≠ "null")
    (h4 : name ≠ "undefined") (h5 : name ≠ "inputs") (h6 : name ≠ "constants")
    (h7 : name ≠ "vars") (h8 : name ≠ "row")
    (hcat : oget fns name = none) :
    evalAst (.ident name) ctx fns = .ok .vundef ∧
    evalAst (.call (.ident name) args) ctx fns =
      .error ("Unknown function: " ++ name) := by
  have hres : resolveIdent name ctx fns = .vundef := by
    simp [resolveIdent, h1, h2, h3, h4, h5, h6, h7, h8, hcat]
  constructor
  · show Except.ok (resolveIdent name ctx fns) = _
    rw [hres]
  · have hcall : evalAst (.call (.ident name) args) ctx fns =
        (match resolveIdent name ctx fns with
         | .vfn f => do
           let evaluatedArgs ← evalArgs args ctx fns
           applyFn f evaluatedArgs
         | _ => .error ("Unknown function: " ++ name)) := rfl
    rw [hcall, hres]

/-- C10, witness: `toString` is an inherited `Object.prototype` member
but no own entry of the default catalog. -/
theorem c10_witness :
    evalAst (.ident "toString") emptyCtx defaultFunctions = .ok .vundef ∧
    evalAst (.call (.ident "toString") .nil) emptyCtx defaultFunctions =
      .error ("Unknown function: " ++ "toString") :=
  c10 "toString" .nil emptyCtx defaultFunctions (by decide) (by decide)
    (by decide) (by decide) (by decide) (by decide) (by decide) (by decide) rfl

/-! ## Claim C5 — the visibility predicate -/

/-- C5, counterexample: the claim ties `isVisible` to the §4.1 truthiness
rule, under which `NaN` is truthy (`specTruthy`); but for an expression
evaluating to `NaN` (here `1 % 0`) the code's `Boolean(...)` yields
`false` — the guard hides the element although the claimed rule would
show it. -/
theorem c5_counterexample :
    evalBoolean parseStub (some "1 % 0") emptyCtx defaultFunctions = false ∧
    evalExpression parseStub "1 % 0" emptyCtx defaultFunctions = .ok (.vnum .nan) ∧
    specTruthy (.vnum .nan) = true :=
  ⟨by decide, rfl, rfl⟩

/-- C5, amended: an absent or empty guard is visible; otherwise the guard
is the JS boolean coercion of the evaluated value — the §4.1 truthiness
rule with `NaN` additionally falsy — and any evaluation failure yields
`false` (fail-closed). -/
theorem c5_amended (parse : String → Except String Expr) (ctx : EvalContext)
    (fns : FunctionMap) (e : String) :
    evalBoolean parse none ctx fns = true ∧
    evalBoolean parse (some "") ctx fns = true ∧
    (∀ v, e ≠ "" → evalExpression parse e ctx fns = .ok v →
      evalBoolean parse (some e) ctx fns = jsTruthy v) ∧
    (∀ m, e ≠ "" → evalExpression parse e ctx fns = .error m →
      evalBoolean parse (some e) ctx fns = false) ∧
    (∀ v, jsTruthy v = true ↔ (specTruthy v = true ∧ v ≠ .vnum .nan)) := by
  refine ⟨rfl, rfl, ?_, ?_, ?_⟩
  · intro v he hok
    simp [evalBoolean, he, hok]
  · intro m he herr
    simp [evalBoolean, he, herr]
  · intro v
    cases v with
    | vnum n => cases n <;> simp [jsTruthy, specTruthy]
    | _ => simp [jsTruthy, specTruthy]

/-- C5, witness for the amended theorem on a non-empty, successfully
evaluating guard. -/
theorem c5_witness :
    evalBoolean parseStub (some "2") emptyCtx defaultFunctions =
      jsTruthy (.vnum (.q 2)) :=
  (c5_amended parseStub emptyCtx defaultFunctions "2").2.2.1 (.vnum (.q 2))
    (by decide) rfl

/-! ## Claim C7 — padStart / padEnd -/

/-- C7, counterexample: `padStart("x", 5, "ab")` pads with the WHOLE pad
string repeated (`"ababx"`), not with its first character only (which
would give `"aaaax"`). -/
theorem c7_counterexample :
    applyFn .padStart [.vstr "x", .vnum (.q 5), .vstr "ab"] = .ok (.vstr "ababx") ∧
    "ababx" ≠ "aaaax" :=
  ⟨rfl, by decide⟩

/-- `toLength` is the identity on naturals below the `2^53 - 1` clamp. -/
theorem toLength_natCast (n : ℕ) (hn : n ≤ 2 ^ 53 - 1) :
    toLength (.q (n : ℚ)) = n := by
  show (if (n : ℚ) ≤ 0 then 0 else min (JNum.truncQ (n : ℚ)).toNat (2 ^ 53 - 1)) = n
  rcases Nat.eq_zero_or_pos n with rfl | hpos
  · simp
  · rw [if_neg (by push_neg; exact_mod_cast hpos)]
    unfold JNum.truncQ
    rw [if_pos (by positivity), Int.floor_natCast]
    norm_num at hn ⊢
    omega

/-- With a non-empty filler, `padFill` yields exactly `k` chars. -/
theorem padFill_length (ch : List Char) (hch : ch ≠ []) (k : ℕ) :
    (padFill ch k).length = k := by
  unfold padFill
  rw [List.length_take]
  refine min_eq_left ?_
  have hlen : ((List.replicate k ch).flatten).length = k * ch.length := by
    simp [List.length_flatten, Function.comp]
  rw [hlen]
  have : 1 ≤ ch.length := by
    cases ch with
    | nil => exact absurd rfl hch
    | cons c r => simp
  calc k = k * 1 := by omega
    _ ≤ k * ch.length := Nat.mul_le_mul_left k this

/-- `stringPad` in closed form: the fill (possibly empty) prepended or
appended. -/
theorem stringPad_eq (s : String) (n : ℕ) (ch : String) :
    stringPad s n ch true = String.mk (padFill ch.data (n - s.length) ++ s.data) ∧
    stringPad s n ch false = String.mk (s.data ++ padFill ch.data (n - s.length)) := by
  unfold stringPad
  by_cases h : n ≤ s.length ∨ ch = ""
  · rw [if_pos h, if_pos h]
    rcases h with h | h
    · have hz : n - s.length = 0 := by omega
      rw [hz]
      simp [padFill]
    · subst h
      simp [padFill]
  · rw [if_neg h, if_neg h]
    constructor <;> rfl

/-- C7, amended: `padStart`/`padEnd` stringify the value, coerce the
length, and pad using the WHOLE pad string repeated cyclically and
truncated (not only its first character), defaulting to a single space
when the pad argument is omitted; with a non-empty pad the result has
length `max n |s|`. -/
theorem c7_amended (s ch : String) (n : ℕ) (hn : n ≤ 2 ^ 53 - 1)
    (hch : ch ≠ "") :
    (applyFn .padStart [.vstr s, .vnum (.q n), .vstr ch] =
      .ok (.vstr (String.mk (padFill ch.data (n - s.length) ++ s.data)))) ∧
    (applyFn .padEnd [.vstr s, .vnum (.q n), .vstr ch] =
      .ok (.vstr (String.mk (s.data ++ padFill ch.data (n - s.length))))) ∧
    (applyFn .padStart [.vstr s, .vnum (.q n)] =
      applyFn .padStart [.vstr s, .vnum (.q n), .vstr " "]) ∧
    (String.mk (padFill ch.data (n - s.length) ++ s.data)).length =
      max n s.length := by
  have hchd : ch.data ≠ [] := by
    intro hd
    exact hch (by cases ch; simp at hd; simp [hd])
  refine ⟨?_, ?_, rfl, ?_⟩
  · have hstep : applyFn .padStart [.vstr s, .vnum (.q n), .vstr ch] =
        .ok (.vstr (stringPad s (toLength (.q n)) ch true)) := rfl
    rw [hstep, toLength_natCast n hn, (stringPad_eq s n ch).1]
  · have hstep : applyFn .padEnd [.vstr s, .vnum (.q n), .vstr ch] =
        .ok (.vstr (stringPad s (toLength (.q n)) ch false)) := rfl
    rw [hstep, toLength_natCast n hn, (stringPad_eq s n ch).2]
  · show (padFill ch.data (n - s.length) ++ s.data).length = _
    rw [List.length_append, padFill_length ch.data hchd]
    have : s.data.length = s.length := rfl
    omega

/-- C7, witness for the amended theorem at `padStart("x", 5, "ab")`. -/
theorem c7_witness :
    applyFn .padStart [.vstr "x", .vnum (.q 5), .vstr "ab"] =
      .ok (.vstr (String.mk (padFill "ab".data (5 - "x".length) ++ "x".data))) :=
  (c7_amended "x" "ab" 5 (by norm_num) (by decide)).1

/-! ## Claim C4 — the template string renderer -/

/-- A text ending in `{{` (after any prefix) contains `{{`. -/
theorem hasOpen_append (xs ys : List Char) :
    hasOpen (xs ++ '{' :: '{' :: ys) = true := by
  induction xs with
  | nil => simp [hasOpen]
  | cons a rest ih =>
    cases rest with
    | nil => simp [hasOpen]
    | cons b rest2 => simpa [hasOpen] using Or.inr ih

/-- The scan copies a prefix that neither contains `{{` nor ends right
before a `{` that would complete one. -/
theorem scanTpl_pass (parse : String → Except String Expr) (ctx : EvalContext)
    (fns : FunctionMap) (pre : List Char) (t : Char) (ts : List Char)
    (h : hasOpen (pre ++ [t]) = false) :
    scanTpl parse ctx fns (pre ++ t :: ts) =
      pre ++ scanTpl parse ctx fns (t :: ts) := by
  induction pre with
  | nil => simp
  | cons a rest ih =>
    cases rest with
    | nil =>
      simp only [hasOpen, Bool.or_eq_false_iff, Bool.and_eq_false_iff] at h
      cases ts with
      | nil =>
        show (if a = '{' ∧ t = '{' then _ else a :: scanTpl parse ctx fns [t]) = _
        rw [if_neg (fun hcon => by
          rcases h.1 with hb | hb <;> simp [hcon.1, hcon.2] at hb)]
        rfl
      | cons u us =>
        show (if a = '{' ∧ t = '{' then _
              else a :: scanTpl parse ctx fns (t :: u :: us)) = _
        rw [if_neg (fun hcon => by
          rcases h.1 with hb | hb <;> simp [hcon.1, hcon.2] at hb)]
        rfl
    | cons b rest2 =>
      simp only [hasOpen, Bool.or_eq_false_iff, Bool.and_eq_false_iff,
        List.cons_append] at h
      show (if a = '{' ∧ b = '{' then _
            else a :: scanTpl parse ctx fns (b :: (rest2 ++ t :: ts))) = _
      rw [if_neg (fun hcon => by
        rcases h.1 with hb | hb <;> simp [hcon.1, hcon.2] at hb)]
      rw [← List.cons_append, ih (by exact h.2)]
      simp

/-- The span collection stops at the first `}}` and hands the body to the
replacement callback. -/
theorem spanScan_close (parse : String → Except String Expr) (ctx : EvalContext)
    (fns : FunctionMap) (inner post : List Char)
    (hc : hasClose (inner ++ ['}']) = false) :
    ∀ acc, spanScan parse ctx fns (inner ++ '}' :: '}' :: post) acc =
      renderSpanText parse ctx fns (acc.reverse ++ inner) ++
        scanTpl parse ctx fns post := by
  induction inner with
  | nil =>
    intro acc
    show (if ('}' : Char) = '}' ∧ ('}' : Char) = '}' then
        renderSpanText parse ctx fns acc.reverse ++ scanTpl parse ctx fns post
      else _) = _
    rw [if_pos ⟨rfl, rfl⟩]
    simp
  | cons a rest ih =>
    intro acc
    cases rest with
    | nil =>
      simp only [hasClose, Bool.or_eq_false_iff, Bool.and_eq_false_iff,
        List.cons_append, List.nil_append] at hc
      show (if a = '}' ∧ ('}' : Char) = '}' then _
            else spanScan parse ctx fns ('}' :: '}' :: post) (a :: acc)) = _
      rw [if_neg (fun hcon => by
        rcases hc.1 with hb | hb <;> simp [hcon.1] at hb)]
      show (if ('}' : Char) = '}' ∧ ('}' : Char) = '}' then
          renderSpanText parse ctx fns (a :: acc).reverse ++
            scanTpl parse ctx fns post
        else _) = _
      rw [if_pos ⟨rfl, rfl⟩]
      simp
    | cons b rest2 =>
      simp only [hasClose, Bool.or_eq_false_iff, Bool.and_eq_false_iff,
        List.cons_append] at hc
      show (if a = '}' ∧ b = '}' then _
            else spanScan parse ctx fns (b :: (rest2 ++ '}' :: '}' :: post)) (a :: acc)) = _
      rw [if_neg (fun hcon => by
        rcases hc.1 with hb | hb <;> simp [hcon.1, hcon.2] at hb)]
      rw [← List.cons_append, ih (by exact hc.2) (a :: acc)]
      simp

/-- C4: the renderer is a total function (every branch below produces a
string).  (1) a template without `{{` is returned unchanged — for EVERY
parser, context and catalog, so no evaluation can influence it; (2) a
well-delimited span is replaced by its rendered value, the surrounding
text passing through unchanged; (3)–(7) the replacement of one span:
blank body ⇒ empty, value ⇒ `String(value)`, "absent"/null ⇒ empty,
evaluation failure ⇒ the bracketed inline error marker. -/
theorem c4 (parse : String → Except String Expr) (ctx : EvalContext)
    (fns : FunctionMap) :
    (∀ tpl : String, hasOpen tpl.data = false →
      renderTemplateString parse tpl ctx fns = tpl) ∧
    (∀ pre inner post : List Char,
      hasOpen (pre ++ ['{']) = false → hasClose (inner ++ ['}']) = false →
      renderTemplateString parse
          (String.mk (pre ++ '{' :: '{' :: (inner ++ '}' :: '}' :: post))) ctx fns
        = String.mk (pre ++ (renderSpanText parse ctx fns inner ++
            scanTpl parse ctx fns post))) ∧
    (∀ inner : List Char, trimStr (String.mk inner) = "" →
      renderSpanText parse ctx fns inner = []) ∧
    (∀ inner v, trimStr (String.mk inner) ≠ "" →
      evalExpression parse (trimStr (String.mk inner)) ctx fns = .ok v →
      v ≠ .vundef → v ≠ .vnull →
      renderSpanText parse ctx fns inner = (jsString v).data) ∧
    (∀ inner, trimStr (String.mk inner) ≠ "" →
      evalExpression parse (trimStr (String.mk inner)) ctx fns = .ok .vundef →
      renderSpanText parse ctx fns inner = []) ∧
    (∀ inner, trimStr (String.mk inner) ≠ "" →
      evalExpression parse (trimStr (String.mk inner)) ctx fns = .ok .vnull →
      renderSpanText parse ctx fns inner = []) ∧
    (∀ inner m, trimStr (String.mk inner) ≠ "" →
      evalExpression parse (trimStr (String.mk inner)) ctx fns = .error m →
      renderSpanText parse ctx fns inner =
        ("[expr error: " ++ m ++ "]").data) := by
  refine ⟨?_, ?_, ?_, ?_, ?_, ?_, ?_⟩
  · intro tpl h
    simp [renderTemplateString, h]
  · intro pre inner post hpre hinner
    rw [renderTemplateString]
    rw [if_pos (by exact hasOpen_append pre (inner ++ '}' :: '}' :: post))]
    have h1 : scanTpl parse ctx fns (pre ++ '{' :: '{' :: (inner ++ '}' :: '}' :: post))
        = pre ++ scanTpl parse ctx fns ('{' :: '{' :: (inner ++ '}' :: '}' :: post)) :=
      scanTpl_pass parse ctx fns pre '{' ('{' :: (inner ++ '}' :: '}' :: post)) hpre
    rw [h1]
    have h2 : scanTpl parse ctx fns ('{' :: '{' :: (inner ++ '}' :: '}' :: post))
        = spanScan parse ctx fns (inner ++ '}' :: '}' :: post) [] := by
      cases hres : inner ++ '}' :: '}' :: post with
      | nil => simp at hres
      | cons x xs =>
        show (if ('{' : Char) = '{' ∧ ('{' : Char) = '{' then
            spanScan parse ctx fns (x :: xs) [] else _) = _
        rw [if_pos ⟨rfl, rfl⟩]
    rw [h2, spanScan_close parse ctx fns inner post hinner []]
    simp
  · intro inner h
    simp [renderSpanText, h]
  · intro inner v hne hok hu hn
    rw [renderSpanText.eq_def]
    simp only [if_neg hne, hok]
  · intro inner hne hok
    rw [renderSpanText.eq_def]
    simp [if_neg hne, hok]
  · intro inner hne hok
    rw [renderSpanText.eq_def]
    simp [if_neg hne, hok]
  · intro inner m hne herr
    rw [renderSpanText.eq_def]
    simp [if_neg hne, herr]

/-- C4, witness: an unchanged no-span template and one rendered span with
surrounding text. -/
theorem c4_witness :
    renderTemplateString parseStub "no spans" emptyCtx defaultFunctions
      = "no spans" ∧
    renderTemplateString parseStub
        (String.mk ("Hi ".data ++ '{' :: '{' :: (" vars.B ".data ++ '}' :: '}' :: "!".data)))
        emptyCtx defaultFunctions
      = String.mk ("Hi ".data ++
          (renderSpanText parseStub emptyCtx defaultFunctions " vars.B ".data ++
            scanTpl parseStub emptyCtx defaultFunctions "!".data)) :=
  ⟨(c4 parseStub emptyCtx defaultFunctions).1 "no spans" (by decide),
   (c4 parseStub emptyCtx defaultFunctions).2.1 "Hi ".data " vars.B ".data
     "!".data (by decide) (by decide)⟩

/-! ## Claims C1 and C8 — the variable dependency resolver -/

/-- C1, counterexample: for the canonical two-variable cycle
(`A = vars.B`, `B = vars.A`) the resolver terminates with exactly one
cycle error — but BOTH keys ARE written into the returned `vars` (each
expression still evaluates, reading the missing dependency as absent), so
`vars` is `{B: undefined, A: undefined}`, not the key-less mapping the
claim demands. -/
theorem c1_counterexample :
    evaluateVariables parseStub [("A", "vars.B"), ("B", "vars.A")] baseCtx
        defaultFunctions
      = ⟨[("B", .vundef), ("A", .vundef)], ["Cycle detected in vars: A"]⟩ ∧
    (oget (evaluateVariables parseStub [("A", "vars.B"), ("B", "vars.A")] baseCtx
        defaultFunctions).vars "A").isSome = true ∧
    (oget (evaluateVariables parseStub [("A", "vars.B"), ("B", "vars.A")] baseCtx
        defaultFunctions).vars "B").isSome = true :=
  ⟨rfl, rfl, rfl⟩

/-- C1, amended: for every two-variable cycle (A's declared dependencies
are exactly `{B}` and B's exactly `{A}`), resolution terminates and
records exactly one cycle error (naming the first-visited variable); the
two variables are NOT left unwritten — B is evaluated with `vars` still
empty and A with B's outcome in scope, and each key is written whenever
its evaluation succeeds (a plain `vars` read succeeds with the absent
value). -/
theorem c1_amended (parse : String → Except String Expr) (tA tB : String)
    (base : BaseContext) (fns : FunctionMap)
    (hcA : collectVarDeps parse tA = .ok ["B"])
    (hcB : collectVarDeps parse tB = .ok ["A"]) :
    evaluateVariables parse [("A", tA), ("B", tB)] base fns =
      (let rB := evalExpression parse tB (mkCtx base (.vobj (fofList []))) fns
       let p1 := stepOutcome "B" rB [] []
       let rA := evalExpression parse tA (mkCtx base (.vobj (fofList p1.1))) fns
       let p2 := stepOutcome "A" rA p1.1 p1.2
       ⟨p2.1, ["Cycle detected in vars: A"] ++ p2.2⟩) := by
  cases hB : evalExpression parse tB (mkCtx base (.vobj (fofList []))) fns with
  | ok vB =>
    cases hA : evalExpression parse tA
        (mkCtx base (.vobj (fofList [("B", vB)]))) fns with
    | ok vA =>
      simp [evaluateVariables, hcA, hcB, evalVar, stepOutcome, oget, oset, hB, hA,
        List.erase]
    | error mA =>
      simp [evaluateVariables, hcA, hcB, evalVar, stepOutcome, oget, oset, hB, hA,
        List.erase]
  | error mB =>
    cases hA : evalExpression parse tA (mkCtx base (.vobj (fofList []))) fns with
    | ok vA =>
      simp [evaluateVariables, hcA, hcB, evalVar, stepOutcome, oget, oset, hB, hA,
        List.erase]
    | error mA =>
      simp [evaluateVariables, hcA, hcB, evalVar, stepOutcome, oget, oset, hB, hA,
        List.erase]

/-- C1, witness for the amended theorem at the canonical cycle, together
with the evaluated outcome (both keys written with the absent value,
exactly one cycle error). -/
theorem c1_witness :
    evaluateVariables parseStub [("A", "vars.B"), ("B", "vars.A")] baseCtx
        defaultFunctions =
      (let rB := evalExpression parseStub "vars.A"
         (mkCtx baseCtx (.vobj (fofList []))) defaultFunctions
       let p1 := stepOutcome "B" rB [] []
       let rA := evalExpression parseStub "vars.B"
         (mkCtx baseCtx (.vobj (fofList p1.1))) defaultFunctions
       let p2 := stepOutcome "A" rA p1.1 p1.2
       ⟨p2.1, ["Cycle detected in vars: A"] ++ p2.2⟩) :=
  c1_amended parseStub "vars.B" "vars.A" baseCtx defaultFunctions rfl rfl

/-- C8: the forward-reference property.  If A (declared first) declares
exactly the dependency `{B}` and B declares none, the depth-first
traversal computes B first — with the empty `vars` — and only then A,
with B's resolved outcome in scope; moreover the declaration order is
irrelevant: `[B, A]` produces the identical result record. -/
theorem c8 (parse : String → Except String Expr) (tA tB : String)
    (base : BaseContext) (fns : FunctionMap)
    (hcA : collectVarDeps parse tA = .ok ["B"])
    (hcB : collectVarDeps parse tB = .ok []) :
    evaluateVariables parse [("A", tA), ("B", tB)] base fns =
      (let rB := evalExpression parse tB (mkCtx base (.vobj (fofList []))) fns
       let p1 := stepOutcome "B" rB [] []
       let rA := evalExpression parse tA (mkCtx base (.vobj (fofList p1.1))) fns
       let p2 := stepOutcome "A" rA p1.1 p1.2
       ⟨p2.1, p2.2⟩) ∧
    evaluateVariables parse [("B", tB), ("A", tA)] base fns =
      (let rB := evalExpression parse tB (mkCtx base (.vobj (fofList []))) fns
       let p1 := stepOutcome "B" rB [] []
       let rA := evalExpression parse tA (mkCtx base (.vobj (fofList p1.1))) fns
       let p2 := stepOutcome "A" rA p1.1 p1.2
       ⟨p2.1, p2.2⟩) := by
  constructor
  · cases hB : evalExpression parse tB (mkCtx base (.vobj (fofList []))) fns with
    | ok vB =>
      cases hA : evalExpression parse tA
          (mkCtx base (.vobj (fofList [("B", vB)]))) fns with
      | ok vA =>
        simp [evaluateVariables, hcA, hcB, evalVar, stepOutcome, oget, oset, hB,
          hA, List.erase]
      | error mA =>
        simp [evaluateVariables, hcA, hcB, evalVar, stepOutcome, oget, oset, hB,
          hA, List.erase]
    | error mB =>
      cases hA : evalExpression parse tA (mkCtx base (.vobj (fofList []))) fns with
      | ok vA =>
        simp [evaluateVariables, hcA, hcB, evalVar, stepOutcome, oget, oset, hB,
          hA, List.erase]
      | error mA =>
        simp [evaluateVariables, hcA, hcB, evalVar, stepOutcome, oget, oset, hB,
          hA, List.erase]
  · cases hB : evalExpression parse tB (mkCtx base (.vobj (fofList []))) fns with
    | ok vB =>
      cases hA : evalExpression parse tA
          (mkCtx base (.vobj (fofList [("B", vB)]))) fns with
      | ok vA =>
        simp [evaluateVariables, hcA, hcB, evalVar, stepOutcome, oget, oset, hB,
          hA, List.erase]
      | error mA =>
        simp [evaluateVariables, hcA, hcB, evalVar, stepOutcome, oget, oset, hB,
          hA, List.erase]
    | error mB =>
      cases hA : evalExpression parse tA (mkCtx base (.vobj (fofList []))) fns with
      | ok vA =>
        simp [evaluateVariables, hcA, hcB, evalVar, stepOutcome, oget, oset, hB,
          hA, List.erase]
      | error mA =>
        simp [evaluateVariables, hcA, hcB, evalVar, stepOutcome, oget, oset, hB,
          hA, List.erase]

/-- C8, witness: `A = vars.B + 1` declared before `B = 2`; the theorem
applies with its dependency hypotheses discharged by evaluation, and the
evaluated outcome shows A resolved to 3 using B's value 2 — in both
declaration orders. -/
theorem c8_witness :
    (evaluateVariables parseStub [("A", "vars.B + 1"), ("B", "2")] baseCtx
        defaultFunctions =
      (let rB := evalExpression parseStub "2"
         (mkCtx baseCtx (.vobj (fofList []))) defaultFunctions
       let p1 := stepOutcome "B" rB [] []
       let rA := evalExpression parseStub "vars.B + 1"
         (mkCtx baseCtx (.vobj (fofList p1.1))) defaultFunctions
       let p2 := stepOutcome "A" rA p1.1 p1.2
       ⟨p2.1, p2.2⟩)) ∧
    evaluateVariables parseStub [("A", "vars.B + 1"), ("B", "2")] baseCtx
        defaultFunctions
      = ⟨[("B", .vnum (.q 2)), ("A", .vnum (.q 3))], []⟩ ∧
    evaluateVariables parseStub [("B", "2"), ("A", "vars.B + 1")] baseCtx
        defaultFunctions
      = ⟨[("B", .vnum (.q 2)), ("A", .vnum (.q 3))], []⟩ :=
  ⟨(c8 parseStub "vars.B + 1" "2" baseCtx defaultFunctions rfl rfl).1, rfl, rfl⟩

end DocTemplateKit
